import Mathlib

/-!
Shallow embedding of the `tp` component library's lorem-ipsum generator
(`packages/components/src/components/lorem/lorem.ts`) and of its numeric
utilities (`packages/components/src/utilities/maths.ts`).

JS strings are modelled as lists of characters.  JS finite doubles are
modelled as rationals; the special values `NaN` / `±Infinity` are modelled
where a claim needs them by the inductive `JSNum`.  The mutable random
stream (`Math.random` or the closure built by `seededNumberGenerator`) is
modelled by the infinite sequence `f : ℕ → ℚ` of its drawn values together
with an explicit cursor `n : ℕ`: each function of the embedding receives
the cursor and returns the advanced cursor, mirroring how the source's
single stream instance is threaded through one generation run.  The
dictionary (`DICTIONARY`, loaded from a module that only re-exports data)
is a parameter, per the spec an ordered, fixed, non-empty list of
lowercase words.
-/

namespace Tp

/-- JS strings, modelled as lists of characters. -/
abbrev Str := List Char

/-- The sequence of values produced by one random stream, in call order. -/
abbrev Draws := ℕ → ℚ

/-- Model of JS `String.prototype.split` with a one-character separator:
`splitOnChar sep s` is the list of separator-free pieces of `s`, with empty
pieces kept (so `"".split` is `[""]` and `"-".split('-')` is `["", ""]`). -/
def splitOnChar (sep : Char) : Str → List Str
  | [] => [[]]
  | c :: cs =>
    let rest := splitOnChar sep cs
    if c = sep then [] :: rest else (c :: rest.headI) :: rest.tail

/-- Numeric value of a string of decimal digits. -/
def digitsVal (s : Str) : ℕ := s.foldl (fun a c => 10 * a + (c.toNat - 48)) 0

/-- Model of unsigned JS decimal-literal parsing: a digit string, or two digit
strings (not both empty) joined by one decimal point.  `none` models `NaN`. -/
def decNumber (s : Str) : Option ℚ :=
  if s ≠ [] ∧ s.all Char.isDigit then some (digitsVal s)
  else
    match splitOnChar '.' s with
    | [a, b] =>
      if (a ≠ [] ∨ b ≠ []) ∧ a.all Char.isDigit ∧ b.all Char.isDigit then
        some ((digitsVal a : ℚ) + (digitsVal b : ℚ) / (10 : ℚ) ^ b.length)
      else none
    | _ => none

/-- Model of the JS `Number(string)` conversion on the fragment of inputs the
generator meets: the empty string converts to 0, an optionally minus-signed
decimal literal converts to the denoted rational, and every other string
converts to `NaN`, modelled as `none`.  (Exotic JS numeric syntax — leading
`+`, surrounding whitespace, hex, exponents, the literal `Infinity` — is
outside the modelled fragment.) -/
def jsNumber (s : Str) : Option ℚ :=
  match s with
  | [] => some 0
  | '-' :: rest => (decNumber rest).map Neg.neg
  | _ => decNumber s

/-- Model of `Number(s) || 0`: `NaN` (and `0` itself) become `0`. -/
def numberOr0 (s : Str) : ℚ := (jsNumber s).getD 0

/-- Model of JS `String.prototype.trim`: whitespace stripped from both ends. -/
def trimStr (s : Str) : Str :=
  ((s.dropWhile Char.isWhitespace).reverse.dropWhile Char.isWhitespace).reverse

/-- Model of `word.charAt(0).toUpperCase() + word.slice(1)` on ASCII words:
the first character is upper-cased, the rest of the string is unchanged. -/
def capitalize : Str → Str
  | [] => []
  | c :: cs => c.toUpper :: cs

/-- Number of iterations of a JS counting loop `for (let i = 0; i < bound; i++)`
with a numeric (possibly non-integral, possibly non-positive) bound. -/
def iterCount (q : ℚ) : ℕ := (⌈q⌉).toNat

/-- maths.ts `clampRandom`: `Math.floor(value * (max - min + 1)) + min`.
The arguments are named `mn`/`mx` for the source's `min`/`max`. -/
def clampRandom (value mn mx : ℚ) : ℚ := ⌊value * (mx - mn + 1)⌋ + mn

/-- Model of `DICTIONARY[index]` for a JS numeric index: an in-bounds integral
index selects the word; any other index yields `undefined`, modelled by a
marker string (the theorems' hypotheses keep indexing in bounds). -/
def dictGet (dict : List Str) (q : ℚ) : Str :=
  if 0 ≤ q ∧ q.den = 1 ∧ q.num < dict.length then dict.getD q.num.toNat [] else "undefined".data

/-- JS double values as the generator's numeric branch distinguishes them:
a finite value (a rational), `NaN`, or a signed infinity. -/
inductive JSNum where
  | finite (q : ℚ)
  | nan
  | posInf
  | negInf
deriving DecidableEq

/-- JS truthiness of a number: exactly `0`, `-0` and `NaN` are falsy. -/
def JSNum.truthy : JSNum → Bool
  | .finite q => decide (q ≠ 0)
  | .nan => false
  | .posInf => true
  | .negInf => true

/-- The numeric branch of lorem.ts `getNumberWithinRange`,
`if (typeof range === 'number') return range || 0`, over the full JS number
domain including the special values: `x || 0` keeps `x` when truthy and
substitutes `0` otherwise. -/
def resolveNumericSpec (x : JSNum) : JSNum :=
  if x.truthy then x else .finite 0

/-- A size parameter as lorem.ts receives it (`number | string`); finite JS
numbers are modelled as rationals. -/
inductive SizeSpec where
  | num (q : ℚ)
  | str (s : Str)

/-- The `type` property of the `tp-lorem` component. -/
inductive LoremType where
  | sentence
  | title
  | paragraph
  | dl
  | ol
  | ul
deriving DecidableEq

/-- The configuration properties of the `tp-lorem` component that
`generateContent` reads (the seed is modelled by the caller's choice of
draw sequence).  `sentencesPerParagraph` is carried because the component
declares it; the source never reads it. -/
structure LoremConfig where
  type : LoremType
  length : SizeSpec
  wordsPerSentence : SizeSpec
  sentencesPerParagraph : SizeSpec

/-- lorem.ts `getNumberWithinRange`: a number is returned as `range || 0`; a
string without `'-'` is returned as `Number(range) || 0`; otherwise the string
is split on `'-'`, both sides are parsed with `Number(..) || 0`, and one stream
draw is clamped into the parsed range. -/
def getNumberWithinRange (range : SizeSpec) (f : Draws) (n : ℕ) : ℚ × ℕ :=
  match range with
  | .num q => (if q = 0 then 0 else q, n)
  | .str s =>
    if s.contains '-' = false then (numberOr0 s, n)
    else
      let parsedRange := splitOnChar '-' s
      let mn := numberOr0 (parsedRange.getD 0 [])
      let mx := numberOr0 (parsedRange.getD 1 [])
      (clampRandom (f n) mn mx, n + 1)

/-- lorem.ts `generateWords`: draw `len` dictionary words, each by clamping one
stream draw into `[0, DICTIONARY.length - 1]`. -/
def generateWords (dict : List Str) (f : Draws) : ℕ → ℕ → List Str × ℕ
  | 0, n => ([], n)
  | len + 1, n =>
    let index := clampRandom (f n) 0 ((dict.length : ℚ) - 1)
    let w := dictGet dict index
    let (ws, n') := generateWords dict f len (n + 1)
    (w :: ws, n')

/-- The inner word loop of lorem.ts `generateSentences`, recursing over the
words from position `j` of a sentence of `len` words: position 0 is appended
capitalized; a later position with `j < len - 3` consumes one stream draw and,
when `clampRandom(draw, 0, commaFrequency) = 0` with `commaFrequency = 10`,
appends `', '` before the plain space; every later position then appends a
space followed by the word. -/
def buildSentence (len : ℕ) (f : Draws) : List Str → ℕ → ℕ → Str × ℕ
  | [], _, n => ([], n)
  | w :: ws, j, n =>
    if j = 0 then
      let (rest, n') := buildSentence len f ws (j + 1) n
      (capitalize w ++ rest, n')
    else if j + 3 < len then
      let addComma := clampRandom (f n) 0 10 = 0
      let (rest, n') := buildSentence len f ws (j + 1) (n + 1)
      ((if addComma then [',', ' '] else []) ++ (' ' :: w) ++ rest, n')
    else
      let (rest, n') := buildSentence len f ws (j + 1) n
      ((' ' :: w) ++ rest, n')

/-- The sentence loop of lorem.ts `generateSentences`: each iteration resolves
`wordsPerSentence`, draws that many words, assembles the sentence, and appends
`'. '`. -/
def sentencesLoop (cfg : LoremConfig) (dict : List Str) (f : Draws) : ℕ → ℕ → Str × ℕ
  | 0, n => ([], n)
  | i + 1, n =>
    let (numWords, n₁) := getNumberWithinRange cfg.wordsPerSentence f n
    let (words, n₂) := generateWords dict f (iterCount numWords) n₁
    let (sentence, n₃) := buildSentence words.length f words 0 n₂
    let (rest, n₄) := sentencesLoop cfg dict f i n₃
    (sentence ++ ('.' :: ' ' :: []) ++ rest, n₄)

/-- lorem.ts `generateSentences`: the sentence count is resolved from `length`
(the source never reads `sentencesPerParagraph`), and the concatenation of the
sentences is trimmed. -/
def generateSentences (cfg : LoremConfig) (dict : List Str) (f : Draws) (n : ℕ) : Str × ℕ :=
  let (numSentences, n₁) := getNumberWithinRange cfg.length f n
  let (sentences, n₂) := sentencesLoop cfg dict f (iterCount numSentences) n₁
  (trimStr sentences, n₂)

/-- The paragraph loop of lorem.ts `generateParagraphs`: each iteration wraps
one `generateSentences` result in `<p>...</p>`. -/
def paragraphsLoop (cfg : LoremConfig) (dict : List Str) (f : Draws) : ℕ → ℕ → Str × ℕ
  | 0, n => ([], n)
  | i + 1, n =>
    let (sentences, n₁) := generateSentences cfg dict f n
    let (rest, n₂) := paragraphsLoop cfg dict f i n₁
    ("<p>".data ++ sentences ++ "</p>".data ++ rest, n₂)

/-- lorem.ts `generateParagraphs`: the paragraph count is resolved from
`length`. -/
def generateParagraphs (cfg : LoremConfig) (dict : List Str) (f : Draws) (n : ℕ) : Str × ℕ :=
  let (numParagraphs, n₁) := getNumberWithinRange cfg.length f n
  paragraphsLoop cfg dict f (iterCount numParagraphs) n₁

/-- lorem.ts `generateTitle`: the word count is resolved from `length`; every
word is capitalized and the words are joined with single spaces. -/
def generateTitle (cfg : LoremConfig) (dict : List Str) (f : Draws) (n : ℕ) : Str × ℕ :=
  let (numWords, n₁) := getNumberWithinRange cfg.length f n
  let (words, n₂) := generateWords dict f (iterCount numWords) n₁
  (List.intercalate [' '] (words.map capitalize), n₂)

/-- The HTML tag interpolated for a list type (`<${this.type}>`). -/
def typeTag : LoremType → Str
  | .dl => "dl".data
  | .ol => "ol".data
  | .ul => "ul".data
  | .sentence => "sentence".data
  | .title => "title".data
  | .paragraph => "paragraph".data

/-- The item loop of lorem.ts `generateList`: each iteration resolves
`wordsPerSentence`, draws the words and joins them with spaces; for `dl` the
item is a `<dt>` holding a `generateTitle` result followed by a `<dd>` holding
the capitalized word run, otherwise it is an `<li>` holding the capitalized
word run. -/
def listLoop (cfg : LoremConfig) (dict : List Str) (f : Draws) : ℕ → ℕ → Str × ℕ
  | 0, n => ([], n)
  | i + 1, n =>
    let (numWords, n₁) := getNumberWithinRange cfg.wordsPerSentence f n
    let (words, n₂) := generateWords dict f (iterCount numWords) n₁
    let item := List.intercalate [' '] words
    if cfg.type = .dl then
      let (title, n₃) := generateTitle cfg dict f n₂
      let (rest, n₄) := listLoop cfg dict f i n₃
      ("<dt>".data ++ title ++ "</dt><dd>".data ++ capitalize item ++ "</dd>".data ++ rest, n₄)
    else
      let (rest, n₃) := listLoop cfg dict f i n₂
      ("<li>".data ++ capitalize item ++ "</li>".data ++ rest, n₃)

/-- lorem.ts `generateList`: the item count is resolved from `length` and the
items are wrapped in `<{type}>...</{type}>`. -/
def generateList (cfg : LoremConfig) (dict : List Str) (f : Draws) (n : ℕ) : Str × ℕ :=
  let (numItems, n₁) := getNumberWithinRange cfg.length f n
  let (items, n₂) := listLoop cfg dict f (iterCount numItems) n₁
  ('<' :: typeTag cfg.type ++ ('>' :: items) ++ ('<' :: '/' :: typeTag cfg.type) ++ ['>'], n₂)

/-- lorem.ts `generateContent` after the stream has been selected: dispatch on
the content type.  The source's choice between `Math.random` and
`seededNumberGenerator(seed)` is modelled by the caller's choice of `f`. -/
def generateContent (cfg : LoremConfig) (dict : List Str) (f : Draws) (n : ℕ) : Str :=
  match cfg.type with
  | .title => (generateTitle cfg dict f n).1
  | .sentence => (generateSentences cfg dict f n).1
  | .paragraph => (generateParagraphs cfg dict f n).1
  | .dl => (generateList cfg dict f n).1
  | .ol => (generateList cfg dict f n).1
  | .ul => (generateList cfg dict f n).1

/-- maths.ts `seededNumberGenerator`'s per-call state update:
`currentSeed = Math.sin(currentSeed) * 10000; currentSeed -= Math.floor(currentSeed)`,
with `Math.sin` modelled by `Real.sin`. -/
noncomputable def seededNext (s : ℝ) : ℝ :=
  Real.sin s * 10000 - ⌊Real.sin s * 10000⌋

/-- Internal state of a `seededNumberGenerator seed` closure after `k` calls. -/
noncomputable def seedState (seed : ℝ) : ℕ → ℝ
  | 0 => seed
  | k + 1 => seededNext (seedState seed k)

/-- The value returned by the `k`-th call (0-based) of the stream created by
`seededNumberGenerator seed`: the state after `k + 1` updates. -/
noncomputable def seedStream (seed : ℝ) (k : ℕ) : ℝ := seedState seed (k + 1)

/-- The all-zero draw sequence — the value sequence of the seeded stream with
seed 0. -/
def zeroDraws : Draws := fun _ => 0

/-- A literal (non-range) size spec: a bare number, or a string without the
`'-'` separator. -/
def SizeSpec.literal : SizeSpec → Prop
  | .num _ => True
  | .str s => s.contains '-' = false

/-- Closed form of the tail of an assembled sentence (positions `j = i + 1` for
`i < ws.length`, after a capitalized first word): the word at position `j` is
preceded by `', '` in addition to its plain space exactly when `j + 3 < len`
and the draw consumed for `j` — the `(j-1)`-th draw of the loop, every earlier
positive position being nearer the start and hence also drawing — is clamped
to 0 in `0..10`. -/
def sentenceTail (len : ℕ) (f : Draws) (n : ℕ) (ws : List Str) : Str :=
  ((List.range ws.length).map fun i =>
    (if (i + 1) + 3 < len ∧ clampRandom (f (n + i)) 0 10 = 0 then [',', ' '] else []) ++
      ' ' :: ws.getD i []).flatten

/-- The claimed sentence-tail rule read literally: a comma-space REPLACES the
plain space before a qualifying word. -/
def sentenceTailClaimed (len : ℕ) (f : Draws) (n : ℕ) (ws : List Str) : Str :=
  ((List.range ws.length).map fun i =>
    (if (i + 1) + 3 < len ∧ clampRandom (f (n + i)) 0 10 = 0 then [',', ' '] else [' ']) ++
      ws.getD i []).flatten

/-! Helper lemmas about the embedding. -/

theorem splitOnChar_ne_nil (sep : Char) (s : Str) : splitOnChar sep s ≠ [] := by
  cases s with
  | nil => simp [splitOnChar]
  | cons c cs => simp only [splitOnChar]; split <;> simp

theorem splitOnChar_of_not_mem {sep : Char} {s : Str} (h : sep ∉ s) : splitOnChar sep s = [s] := by
  induction s with
  | nil => rfl
  | cons c cs ih =>
    simp only [List.mem_cons, not_or] at h
    have hc : ¬c = sep := fun he => h.1 he.symm
    simp [splitOnChar, ih h.2, hc]

theorem splitOnChar_append {sep : Char} {a : Str} (b : Str) (h : sep ∉ a) :
    splitOnChar sep (a ++ sep :: b) = a :: splitOnChar sep b := by
  induction a with
  | nil => simp [splitOnChar]
  | cons c cs ih =>
    simp only [List.mem_cons, not_or] at h
    have hc : ¬c = sep := fun he => h.1 he.symm
    simp [splitOnChar, ih h.2, hc]

theorem jsNumber_digits {s : Str} (h1 : s ≠ []) (h2 : ∀ c ∈ s, c.isDigit) :
    jsNumber s = some ((digitsVal s : ℚ)) := by
  have hdec : decNumber s = some ((digitsVal s : ℚ)) := by
    rw [decNumber, if_pos ⟨h1, List.all_eq_true.mpr h2⟩]
  cases s with
  | nil => exact absurd rfl h1
  | cons c cs =>
    have hc : c ≠ '-' := by
      intro hc
      subst hc
      have := h2 '-' (by simp)
      exact absurd this (by decide)
    unfold jsNumber
    split
    · simp_all
    · rename_i heq
      rw [List.cons_eq_cons] at heq
      exact absurd heq.1 hc
    · exact hdec

theorem numberOr0_digits {s : Str} (h1 : s ≠ []) (h2 : ∀ c ∈ s, c.isDigit) :
    numberOr0 s = (digitsVal s : ℚ) := by
  rw [numberOr0, jsNumber_digits h1 h2]
  rfl

theorem clampRandom_int_mem {v : ℚ} (a b : ℤ) (h0 : 0 ≤ v) (h1 : v < 1) (hab : a ≤ b) :
    (a : ℚ) ≤ clampRandom v a b ∧ clampRandom v a b ≤ (b : ℚ) := by
  have hspan : ((a : ℚ) - 1) + ((b : ℚ) - a + 1) = b := by ring
  have hspan0 : (0 : ℚ) < (b : ℚ) - a + 1 := by
    have : (a : ℚ) ≤ b := by exact_mod_cast hab
    linarith
  have hlow : (0 : ℤ) ≤ ⌊v * ((b : ℚ) - a + 1)⌋ := by
    rw [Int.le_floor]
    push_cast
    exact mul_nonneg h0 (le_of_lt hspan0)
  have hhigh : ⌊v * ((b : ℚ) - a + 1)⌋ < b - a + 1 := by
    rw [Int.floor_lt]
    push_cast
    nlinarith
  constructor
  · rw [clampRandom]
    have : (0 : ℚ) ≤ (⌊v * ((b : ℚ) - a + 1)⌋ : ℚ) := by exact_mod_cast hlow
    linarith
  · rw [clampRandom]
    have : (⌊v * ((b : ℚ) - a + 1)⌋ : ℚ) ≤ (b : ℚ) - a := by
      have : ⌊v * ((b : ℚ) - a + 1)⌋ ≤ b - a := by omega
      exact_mod_cast this
    linarith

theorem clampRandom_int_cast (v : ℚ) (a b : ℤ) :
    clampRandom v a b = ((⌊v * ((b : ℚ) - a + 1)⌋ + a : ℤ) : ℚ) := by
  rw [clampRandom]
  push_cast
  ring

theorem dictGet_clampRandom_mem {dict : List Str} (hd : dict ≠ []) {v : ℚ}
    (h0 : 0 ≤ v) (h1 : v < 1) :
    dictGet dict (clampRandom v 0 ((dict.length : ℚ) - 1)) ∈ dict := by
  have hN : 0 < dict.length := List.length_pos.mpr hd
  have hz : clampRandom v 0 ((dict.length : ℚ) - 1) = ((⌊v * (dict.length : ℚ)⌋ : ℤ) : ℚ) := by
    rw [clampRandom]
    ring_nf
  have hlow : (0 : ℤ) ≤ ⌊v * (dict.length : ℚ)⌋ := by
    rw [Int.le_floor]
    positivity
  have hhigh : ⌊v * (dict.length : ℚ)⌋ < (dict.length : ℤ) := by
    rw [Int.floor_lt]
    have hNq : (0 : ℚ) < (dict.length : ℚ) := by exact_mod_cast hN
    push_cast
    nlinarith
  rw [hz, dictGet, if_pos]
  · have hlt : (⌊v * (dict.length : ℚ)⌋).toNat < dict.length := by omega
    rw [Rat.num_intCast, List.getD_eq_getElem _ _ hlt]
    exact List.getElem_mem _
  · refine ⟨by exact_mod_cast hlow, Rat.den_intCast _, ?_⟩
    rw [Rat.num_intCast]
    exact_mod_cast hhigh

theorem charOfNat_sub32_bounds {n : ℕ} (h1 : 97 ≤ n) (h2 : n ≤ 122) :
    65 ≤ (Char.ofNat (n - 32)).val ∧ (Char.ofNat (n - 32)).val ≤ 90 := by
  interval_cases n <;> decide

theorem isUpper_toUpper {c : Char} (h : c.isLower = true) : c.toUpper.isUpper = true := by
  simp [Char.isLower] at h
  obtain ⟨h1, h2⟩ := h
  have h1n : 97 ≤ c.val.toNat := UInt32.le_toNat_of_le (by norm_num) h1
  have h2n : c.val.toNat ≤ 122 := UInt32.toNat_le_of_le (by norm_num) h2
  simp [Char.toUpper, Char.isUpper, Char.toNat, h1n, h2n]
  exact charOfNat_sub32_bounds h1n h2n

theorem ne_space_of_isUpper {c : Char} (h : c.isUpper = true) : c ≠ ' ' := by
  intro he
  subst he
  exact absurd h (by decide)

theorem not_whitespace_of_isUpper {c : Char} (h : c.isUpper = true) : c.isWhitespace = false := by
  rw [Char.isWhitespace]
  have hs : c ≠ ' ' := fun he => by subst he; exact absurd h (by decide)
  have ht : c ≠ '\t' := fun he => by subst he; exact absurd h (by decide)
  have hr : c ≠ '\r' := fun he => by subst he; exact absurd h (by decide)
  have hn : c ≠ '\n' := fun he => by subst he; exact absurd h (by decide)
  simp [hs, ht, hr, hn]

theorem seededNext_zero : seededNext 0 = 0 := by
  simp [seededNext]

theorem seedState_zero (k : ℕ) : seedState 0 k = 0 := by
  induction k with
  | zero => rfl
  | succ k ih => rw [seedState, ih, seededNext_zero]

theorem seedStream_zero (k : ℕ) : seedStream 0 k = 0 := seedState_zero (k + 1)

theorem trimStr_sentence {c : Char} (hc : c.isWhitespace = false) (x : Str) :
    trimStr (c :: (x ++ ['.', ' '])) = c :: (x ++ ['.']) := by
  simp [trimStr, hc, List.dropWhile_append, List.dropWhile]

theorem buildSentence_go (len : ℕ) (f : Draws) :
    ∀ (ws : List Str) (j n : ℕ), 1 ≤ j →
      buildSentence len f ws j n =
        (((List.range ws.length).map fun i =>
          (if (j + i) + 3 < len ∧ clampRandom (f (n + i)) 0 10 = 0 then [',', ' '] else []) ++
            ' ' :: ws.getD i []).flatten,
         n + min ws.length (len - 3 - j)) := by
  intro ws
  induction ws with
  | nil => intro j n hj; simp [buildSentence]
  | cons w ws ih =>
    intro j n hj
    have hj0 : ¬ j = 0 := by omega
    rw [buildSentence]
    simp only [hj0, if_false]
    by_cases hq : j + 3 < len
    · rw [if_pos hq, ih (j + 1) (n + 1) (by omega)]
      simp only [List.length_cons, List.range_succ_eq_map, List.map_cons, List.map_map,
        List.flatten_cons, List.getD_cons_zero, Nat.add_zero, Prod.mk.injEq,
        Function.comp_def, Nat.succ_eq_add_one, List.getD_cons_succ, hq, true_and]
      refine ⟨?_, by omega⟩
      have hmap : ∀ i ∈ List.range ws.length,
          (if j + 1 + i + 3 < len ∧ clampRandom (f (n + 1 + i)) 0 10 = 0 then [',', ' ']
            else []) ++ ' ' :: ws.getD i [] =
          (if j + (i + 1) + 3 < len ∧ clampRandom (f (n + (i + 1))) 0 10 = 0 then [',', ' ']
            else []) ++ ' ' :: ws.getD i [] := by
        intro i _
        rw [show j + 1 + i = j + (i + 1) from by omega, show n + 1 + i = n + (i + 1) from by omega]
      rw [List.map_congr_left hmap]
    · rw [if_neg hq, ih (j + 1) n (by omega)]
      simp only [List.length_cons, List.range_succ_eq_map, List.map_cons, List.map_map,
        List.flatten_cons, List.getD_cons_zero, Nat.add_zero, Prod.mk.injEq,
        Function.comp_def, Nat.succ_eq_add_one, List.getD_cons_succ]
      refine ⟨?_, by omega⟩
      rw [if_neg (by omega)]
      have hmap : ∀ i ∈ List.range ws.length,
          (if j + 1 + i + 3 < len ∧ clampRandom (f (n + i)) 0 10 = 0 then [',', ' ']
            else []) ++ ' ' :: ws.getD i [] =
          (if j + (i + 1) + 3 < len ∧ clampRandom (f (n + (i + 1))) 0 10 = 0 then [',', ' ']
            else []) ++ ' ' :: ws.getD i [] := by
        intro i _
        rw [if_neg (by omega), if_neg (by omega)]
      rw [List.map_congr_left hmap]
      simp

/-! Theorems settling the claims. -/

/-- C4 (amended): in sentence assembly over words `w :: ws`, the first word is
capitalized and never preceded by a comma; the word at 0-based position
`j = i + 1` is preceded by `', '` IN ADDITION TO its plain space exactly when
`j < wordCount - 3` and the single stream draw consumed for that position — the
`(j-1)`-th draw of the loop, so exactly one draw per qualifying position
`0 < j < wordCount - 3` — satisfies `clampRandom(draw, 0, 10) = 0` (one chance
in 11 for a uniform draw); words at positions `j ≥ wordCount - 3` and the first
word draw nothing and never receive a comma; in total the loop consumes exactly
`wordCount - 4` draws (`sentenceTail` spells out this closed form). -/
theorem sentence_comma_positions (w : Str) (ws : List Str) (f : Draws) (n : ℕ) :
    buildSentence (w :: ws).length f (w :: ws) 0 n =
      (capitalize w ++ sentenceTail (w :: ws).length f n ws, n + ((w :: ws).length - 4)) := by
  rw [buildSentence, if_pos (show (0 : ℕ) = 0 from rfl)]
  rw [buildSentence_go _ f ws 1 n le_rfl]
  simp only [sentenceTail, Prod.mk.injEq, List.length_cons]
  constructor
  · congr 2
    apply List.map_congr_left
    intro i _
    rw [show 1 + i = i + 1 from by omega]
  · omega

/-- C4, counterexample to the claim as stated: with five words `aa bb cc dd ee`
and the all-zero stream the draw for position 1 is 0, so a comma is inserted,
but the result keeps the plain space after the comma (`"Aa,  bb cc dd ee"`,
two spaces); the comma-space does not REPLACE the plain space as claimed
(`sentenceTailClaimed`), it is added before it. -/
theorem comma_not_instead_of_space :
    (buildSentence 5 zeroDraws ["aa".data, "bb".data, "cc".data, "dd".data, "ee".data] 0 0).1 =
      "Aa,  bb cc dd ee".data ∧
    (buildSentence 5 zeroDraws ["aa".data, "bb".data, "cc".data, "dd".data, "ee".data] 0 0).1 ≠
      capitalize "aa".data ++
        sentenceTailClaimed 5 zeroDraws 0 ["bb".data, "cc".data, "dd".data, "ee".data] := by
  constructor
  · with_unfolding_all decide
  · with_unfolding_all decide

/-- C1: the code contradicts the claim (and its own property documentation).
With shape = paragraph, `length = "2-2"`, `sentencesPerParagraph = "1-1"`
(and `wordsPerSentence = "1-1"`, a one-word dictionary, the all-zero stream),
the output has 2 paragraph wrappers but each contains 2 sentences, not 1:
`generateSentences` resolves the sentence count from `length` and never reads
`sentencesPerParagraph`. -/
theorem paragraph_ignores_sentencesPerParagraph :
    generateContent ⟨.paragraph, .str "2-2".data, .str "1-1".data, .str "1-1".data⟩
        ["lorem".data] zeroDraws 0 =
      "<p>Lorem. Lorem.</p><p>Lorem. Lorem.</p>".data ∧
    generateContent ⟨.paragraph, .str "2-2".data, .str "1-1".data, .str "1-1".data⟩
        ["lorem".data] zeroDraws 0 ≠
      "<p>Lorem.</p><p>Lorem.</p>".data := by
  constructor
  · with_unfolding_all decide
  · with_unfolding_all decide

/-- C2: generation is deterministic in (config, dictionary, seed).  If two
independent stream instances both realize the value sequence of the seeded
generator for one seed `s` — as two `seededNumberGenerator(s)` closures do —
then the two generation runs produce identical output strings. -/
theorem generate_deterministic_of_same_seed (cfg : LoremConfig) (dict : List Str) (n : ℕ)
    (s : ℝ) (f g : Draws)
    (hf : ∀ k, ((f k : ℚ) : ℝ) = seedStream s k) (hg : ∀ k, ((g k : ℚ) : ℝ) = seedStream s k) :
    generateContent cfg dict f n = generateContent cfg dict g n := by
  have hfg : f = g := by
    funext k
    have : ((f k : ℚ) : ℝ) = ((g k : ℚ) : ℝ) := (hf k).trans (hg k).symm
    exact_mod_cast this
  rw [hfg]

theorem generate_deterministic_witness :
    generateContent ⟨.title, .num 3, .str "4-16".data, .str "3-6".data⟩ ["lorem".data]
        zeroDraws 0 =
      generateContent ⟨.title, .num 3, .str "4-16".data, .str "3-6".data⟩ ["lorem".data]
        zeroDraws 0 :=
  generate_deterministic_of_same_seed _ _ 0 0 zeroDraws zeroDraws
    (fun k => by rw [seedStream_zero]; simp [zeroDraws])
    (fun k => by rw [seedStream_zero]; simp [zeroDraws])

/-- C5 (amended): the numeric branch of `getNumberWithinRange` returns every
finite number unchanged (`0` maps to `0`), replaces `NaN` by `0`, and — the
correction — returns `Infinity` and `-Infinity` unchanged, because `x || 0`
only substitutes for falsy values and the infinities are truthy. -/
theorem numeric_spec_resolution :
    (∀ q : ℚ, resolveNumericSpec (.finite q) = .finite q) ∧
    resolveNumericSpec .nan = .finite 0 ∧
    resolveNumericSpec .posInf = .posInf ∧
    resolveNumericSpec .negInf = .negInf := by
  refine ⟨fun q => ?_, rfl, rfl, rfl⟩
  by_cases h : q = 0
  · subst h; rfl
  · simp [resolveNumericSpec, JSNum.truthy, h]

/-- C5, counterexample to the claim as stated: `Infinity` is truthy, so the
numeric branch returns it unchanged instead of substituting 0. -/
theorem numeric_spec_infinity_counterexample :
    resolveNumericSpec .posInf ≠ .finite 0 ∧ resolveNumericSpec .negInf ≠ .finite 0 := by
  constructor
  · decide
  · decide

/-- C6: resolving a literal (non-range) size spec — a bare number, or a string
without a `'-'` separator — returns the stream cursor unchanged: no draw is
consumed, so all later draws are the same as if the resolution had not
happened. -/
theorem literal_spec_preserves_stream (spec : SizeSpec) (f : Draws) (n : ℕ)
    (h : spec.literal) : (getNumberWithinRange spec f n).2 = n := by
  cases spec with
  | num q => rfl
  | str s =>
    rw [SizeSpec.literal] at h
    have h2 : ¬ ('-' ∈ s) := by
      intro hm
      have ht : List.contains s '-' = true := by
        rw [List.contains]
        exact List.elem_iff.mpr hm
      rw [h] at ht
      exact Bool.false_ne_true ht
    simp [getNumberWithinRange, h2]

theorem literal_spec_preserves_stream_witness :
    (getNumberWithinRange (.num 7) zeroDraws 5).2 = 5 ∧
    (getNumberWithinRange (.str "7".data) zeroDraws 5).2 = 5 :=
  ⟨literal_spec_preserves_stream (.num 7) zeroDraws 5 trivial,
   literal_spec_preserves_stream (.str "7".data) zeroDraws 5
     (show ("7".data).contains '-' = false from by decide)⟩

/-- C10: 0 is a fixed point of the seeded generator's update — every call of
the stream seeded with 0 returns exactly 0 (over the reals, `sin 0 = 0`
exactly, matching IEEE `Math.sin(0) = 0`); consequently, under the all-zero
draw sequence, every range spec resolves to its parsed minimum and the
dictionary index `clampRandom(draw, 0, length - 1)` is always 0. -/
theorem seed_zero_fixed_point :
    (∀ k, seedStream 0 k = 0) ∧
    (∀ (s : Str) (n : ℕ), s.contains '-' = true →
      (getNumberWithinRange (.str s) zeroDraws n).1 =
        numberOr0 ((splitOnChar '-' s).getD 0 [])) ∧
    (∀ (dict : List Str) (n : ℕ), clampRandom (zeroDraws n) 0 ((dict.length : ℚ) - 1) = 0) := by
  refine ⟨seedStream_zero, fun s n h => ?_, fun dict n => ?_⟩
  · simp only [getNumberWithinRange, h]
    simp [clampRandom, zeroDraws]
  · simp [clampRandom, zeroDraws]

theorem seed_zero_fixed_point_witness :
    seedStream 0 37 = 0 ∧
    (getNumberWithinRange (.str "3-5".data) zeroDraws 0).1 =
      numberOr0 ((splitOnChar '-' "3-5".data).getD 0 []) ∧
    clampRandom (zeroDraws 0) 0 ((["lorem".data].length : ℚ) - 1) = 0 :=
  ⟨seed_zero_fixed_point.1 37,
   seed_zero_fixed_point.2.1 "3-5".data 0 (by decide),
   seed_zero_fixed_point.2.2 ["lorem".data] 0⟩

/-- C3, counterexample to the claim as stated: for the integers min = -5 ≤
max = -2 the range spec `"-5--2"` splits on `'-'` into `["", "5", "", "2"]`,
so the parsed bounds are 0 and 5 and the all-zero stream resolves the spec to
0, which is outside the claimed closed range [-5, -2]. -/
theorem range_negative_bounds_counterexample :
    (getNumberWithinRange (.str "-5--2".data) zeroDraws 0).1 = 0 ∧
    ¬ ((-5 : ℚ) ≤ (getNumberWithinRange (.str "-5--2".data) zeroDraws 0).1 ∧
       (getNumberWithinRange (.str "-5--2".data) zeroDraws 0).1 ≤ (-2 : ℚ)) := by
  constructor
  · with_unfolding_all decide
  · with_unfolding_all decide

theorem clampRandom_nat_mem {v : ℚ} (a b : ℕ) (h0 : 0 ≤ v) (h1 : v < 1) (hab : a ≤ b) :
    ((a : ℚ) ≤ clampRandom v a b ∧ clampRandom v a b ≤ (b : ℚ)) ∧
    ∃ z : ℤ, clampRandom v a b = (z : ℚ) := by
  have hcast := clampRandom_int_cast v a b
  have hmem := clampRandom_int_mem (a : ℤ) (b : ℤ) h0 h1 (by exact_mod_cast hab)
  push_cast at hcast hmem
  exact ⟨hmem, ⟨⌊v * ((b : ℚ) - a + 1)⌋ + a, by rw [hcast]; push_cast; ring⟩⟩

/-- C3 (amended): for all bounds min ≤ max given as decimal digit strings —
hence nonnegative integers; a negative bound's minus sign is swallowed by the
split on `'-'`, see the counterexample — and every stream whose draw lies in
[0, 1), resolving the range spec `"{min}-{max}"` returns an integer n with
min ≤ n ≤ max, both endpoints included. -/
theorem range_resolution_within_bounds (s₁ s₂ : Str) (f : Draws) (n : ℕ)
    (h₁ : s₁ ≠ [] ∧ ∀ c ∈ s₁, c.isDigit = true)
    (h₂ : s₂ ≠ [] ∧ ∀ c ∈ s₂, c.isDigit = true)
    (hf : 0 ≤ f n ∧ f n < 1)
    (hle : digitsVal s₁ ≤ digitsVal s₂) :
    (digitsVal s₁ : ℚ) ≤ (getNumberWithinRange (.str (s₁ ++ '-' :: s₂)) f n).1 ∧
    (getNumberWithinRange (.str (s₁ ++ '-' :: s₂)) f n).1 ≤ (digitsVal s₂ : ℚ) ∧
    ∃ z : ℤ, (getNumberWithinRange (.str (s₁ ++ '-' :: s₂)) f n).1 = (z : ℚ) := by
  have hd₁ : '-' ∉ s₁ := fun hm => by
    have := h₁.2 '-' hm
    exact absurd this (by decide)
  have hd₂ : '-' ∉ s₂ := fun hm => by
    have := h₂.2 '-' hm
    exact absurd this (by decide)
  have hcon : (s₁ ++ '-' :: s₂).contains '-' = true := by
    rw [List.contains]
    exact List.elem_iff.mpr (by simp)
  have hsplit : splitOnChar '-' (s₁ ++ '-' :: s₂) = s₁ :: [s₂] := by
    rw [splitOnChar_append s₂ hd₁, splitOnChar_of_not_mem hd₂]
  have hres : (getNumberWithinRange (.str (s₁ ++ '-' :: s₂)) f n).1 =
      clampRandom (f n) (digitsVal s₁ : ℚ) (digitsVal s₂ : ℚ) := by
    simp only [getNumberWithinRange, hcon, Bool.true_eq_false, if_false, hsplit]
    rw [List.getD_cons_zero, List.getD_cons_succ, List.getD_cons_zero,
      numberOr0_digits h₁.1 h₁.2, numberOr0_digits h₂.1 h₂.2]
  rw [hres]
  have hmem := clampRandom_nat_mem (digitsVal s₁) (digitsVal s₂) hf.1 hf.2 hle
  exact ⟨hmem.1.1, hmem.1.2, hmem.2⟩

theorem range_resolution_within_bounds_witness :
    (digitsVal "3".data : ℚ) ≤ (getNumberWithinRange (.str ("3".data ++ '-' :: "5".data)) zeroDraws 0).1 ∧
    (getNumberWithinRange (.str ("3".data ++ '-' :: "5".data)) zeroDraws 0).1 ≤ (digitsVal "5".data : ℚ) ∧
    ∃ z : ℤ, (getNumberWithinRange (.str ("3".data ++ '-' :: "5".data)) zeroDraws 0).1 = (z : ℚ) :=
  range_resolution_within_bounds "3".data "5".data zeroDraws 0
    ⟨by decide, by decide⟩ ⟨by decide, by decide⟩ ⟨le_refl 0, by norm_num [zeroDraws]⟩ (by decide)

/-- Helper: a nonempty, space-free word starting with a lowercase letter
capitalizes to a nonempty, space-free word starting with an uppercase letter. -/
theorem capitalize_clean {w : Str} (hw : ∃ c cs, w = c :: cs ∧ c.isLower = true ∧ ' ' ∉ w) :
    capitalize w ≠ [] ∧ (capitalize w).headI.isUpper = true ∧ ' ' ∉ capitalize w := by
  obtain ⟨c, cs, rfl, hlow, hsp⟩ := hw
  have hup : c.toUpper.isUpper = true := isUpper_toUpper hlow
  refine ⟨by simp [capitalize], by simp [capitalize, hup], ?_⟩
  simp only [capitalize, List.mem_cons, not_or]
  exact ⟨fun he => ne_space_of_isUpper hup he.symm, fun hm => hsp (List.mem_cons_of_mem _ hm)⟩

/-- C7: for shape = title with length = 3 over a non-empty dictionary of
lowercase space-free words and a stream with draws in [0, 1), the output is
exactly 3 space-separated words, each drawn from the dictionary (by an index
clamped into [0, dictionary.length - 1]) and each starting with an uppercase
letter. -/
theorem title_three_words (cfg : LoremConfig) (dict : List Str) (f : Draws) (n : ℕ)
    (htype : cfg.type = .title) (hlen : cfg.length = .num 3)
    (hdict : dict ≠ [])
    (hwords : ∀ w ∈ dict, ∃ c cs, w = c :: cs ∧ c.isLower = true ∧ ' ' ∉ w)
    (hf : ∀ k, 0 ≤ f k ∧ f k < 1) :
    ∃ w₁ w₂ w₃, w₁ ∈ dict ∧ w₂ ∈ dict ∧ w₃ ∈ dict ∧
      generateContent cfg dict f n =
        capitalize w₁ ++ ' ' :: capitalize w₂ ++ ' ' :: capitalize w₃ ∧
      ∀ w ∈ [w₁, w₂, w₃],
        capitalize w ≠ [] ∧ (capitalize w).headI.isUpper = true ∧ ' ' ∉ capitalize w := by
  obtain ⟨ty, len, wps, spp⟩ := cfg
  simp only at htype hlen
  subst htype
  subst hlen
  refine ⟨dictGet dict (clampRandom (f n) 0 ((dict.length : ℚ) - 1)),
          dictGet dict (clampRandom (f (n + 1)) 0 ((dict.length : ℚ) - 1)),
          dictGet dict (clampRandom (f (n + 2)) 0 ((dict.length : ℚ) - 1)),
          dictGet_clampRandom_mem hdict (hf n).1 (hf n).2,
          dictGet_clampRandom_mem hdict (hf (n + 1)).1 (hf (n + 1)).2,
          dictGet_clampRandom_mem hdict (hf (n + 2)).1 (hf (n + 2)).2, ?_, ?_⟩
  · show (generateTitle _ dict f n).1 = _
    have hnum : getNumberWithinRange (.num 3) f n = ((3 : ℚ), n) := by
      simp only [getNumberWithinRange]
      norm_num
    have hiter : iterCount 3 = 3 := by
      rw [iterCount]
      norm_num
      rfl
    have hwords3 : generateWords dict f 3 n =
        ([dictGet dict (clampRandom (f n) 0 ((dict.length : ℚ) - 1)),
          dictGet dict (clampRandom (f (n + 1)) 0 ((dict.length : ℚ) - 1)),
          dictGet dict (clampRandom (f (n + 2)) 0 ((dict.length : ℚ) - 1))], n + 3) := rfl
    rw [generateTitle, hnum]
    simp only [hiter, hwords3]
    simp [List.intercalate, List.intersperse]
  · intro w hw
    simp only [List.mem_cons, List.not_mem_nil, or_false] at hw
    rcases hw with rfl | rfl | rfl
    · exact capitalize_clean (hwords _ (dictGet_clampRandom_mem hdict (hf n).1 (hf n).2))
    · exact capitalize_clean (hwords _ (dictGet_clampRandom_mem hdict (hf (n + 1)).1 (hf (n + 1)).2))
    · exact capitalize_clean (hwords _ (dictGet_clampRandom_mem hdict (hf (n + 2)).1 (hf (n + 2)).2))

theorem title_three_words_witness :
    ∃ w₁ w₂ w₃, w₁ ∈ ["lorem".data] ∧ w₂ ∈ ["lorem".data] ∧ w₃ ∈ ["lorem".data] ∧
      generateContent ⟨.title, .num 3, .str "4-16".data, .str "3-6".data⟩ ["lorem".data]
          zeroDraws 0 =
        capitalize w₁ ++ ' ' :: capitalize w₂ ++ ' ' :: capitalize w₃ ∧
      ∀ w ∈ [w₁, w₂, w₃],
        capitalize w ≠ [] ∧ (capitalize w).headI.isUpper = true ∧ ' ' ∉ capitalize w :=
  title_three_words ⟨.title, .num 3, .str "4-16".data, .str "3-6".data⟩ ["lorem".data]
    zeroDraws 0 rfl rfl (by decide)
    (by
      intro w hw
      simp only [List.mem_singleton] at hw
      subst hw
      exact ⟨'l', "orem".data, rfl, by decide, by decide⟩)
    (fun k => ⟨le_refl 0, by norm_num [zeroDraws]⟩)

/-- Helper: the inner sentence loop fully unfolded for a five-word sentence:
the first word is capitalized, position 1 draws once for the optional comma,
positions 2..4 (within three of the end) are appended with plain spaces. -/
theorem buildSentence_five (f : Draws) (m : ℕ) (a b c d e : Str) :
    buildSentence 5 f [a, b, c, d, e] 0 m =
      (capitalize a ++
        ((if clampRandom (f m) 0 10 = 0 then [',', ' '] else []) ++
          ((' ' :: b) ++ ((' ' :: c) ++ ((' ' :: d) ++ ((' ' :: e) ++ []))))), m + 1) := by
  norm_num [buildSentence]

/-- C8 (amended): for shape = sentence with `wordsPerSentence = "5-5"` and
`length = 1` — the default `length = "3-5"` gives 3 to 5 sentences, see the
counterexample — with a non-empty dictionary of lowercase space-free words and
draws in [0, 1), the output is a single sentence of exactly 5 dictionary
words (position 1 may carry a comma after the first word), first letter
capitalized, ending in a period. -/
theorem sentence_five_words (cfg : LoremConfig) (dict : List Str) (f : Draws) (n : ℕ)
    (htype : cfg.type = .sentence) (hlen : cfg.length = .num 1)
    (hwps : cfg.wordsPerSentence = .str "5-5".data)
    (hdict : dict ≠ [])
    (hwords : ∀ w ∈ dict, ∃ c cs, w = c :: cs ∧ c.isLower = true ∧ ' ' ∉ w)
    (hf : ∀ k, 0 ≤ f k ∧ f k < 1) :
    ∃ w₁ w₂ w₃ w₄ w₅ sep, w₁ ∈ dict ∧ w₂ ∈ dict ∧ w₃ ∈ dict ∧ w₄ ∈ dict ∧ w₅ ∈ dict ∧
      (sep = [',', ' ', ' '] ∨ sep = [' ']) ∧
      generateContent cfg dict f n =
        capitalize w₁ ++ sep ++ w₂ ++ ' ' :: w₃ ++ ' ' :: w₄ ++ ' ' :: w₅ ++ ['.'] ∧
      (capitalize w₁).headI.isUpper = true ∧ capitalize w₁ ≠ [] ∧
      ∀ w ∈ [w₂, w₃, w₄, w₅], w ≠ [] ∧ ' ' ∉ w := by
  obtain ⟨ty, len, wps, spp⟩ := cfg
  simp only at htype hlen hwps
  subst htype
  subst hlen
  subst hwps
  have h55 : getNumberWithinRange (.str "5-5".data) f (n) = (clampRandom (f n) 5 5, n + 1) := by
    with_unfolding_all rfl
  have hcr : clampRandom (f n) 5 5 = 5 := by
    rw [clampRandom]
    have h1 : (5 : ℚ) - 5 + 1 = 1 := by norm_num
    rw [h1, mul_one, Int.floor_eq_zero_iff.mpr (Set.mem_Ico.mpr ⟨(hf n).1, (hf n).2⟩)]
    norm_num
  have hn1 : getNumberWithinRange (.num 1) f n = ((1 : ℚ), n) := by
    simp only [getNumberWithinRange]
    norm_num
  have hi1 : iterCount 1 = 1 := by with_unfolding_all decide
  have hi5 : iterCount 5 = 5 := by with_unfolding_all decide
  have hgw : generateWords dict f 5 (n + 1) =
      ([dictGet dict (clampRandom (f (n + 1)) 0 ((dict.length : ℚ) - 1)),
        dictGet dict (clampRandom (f (n + 2)) 0 ((dict.length : ℚ) - 1)),
        dictGet dict (clampRandom (f (n + 3)) 0 ((dict.length : ℚ) - 1)),
        dictGet dict (clampRandom (f (n + 4)) 0 ((dict.length : ℚ) - 1)),
        dictGet dict (clampRandom (f (n + 5)) 0 ((dict.length : ℚ) - 1))], n + 6) := rfl
  obtain ⟨c₁, cs₁, hw₁, hlow₁, hsp₁⟩ :=
    hwords _ (dictGet_clampRandom_mem hdict (hf (n + 1)).1 (hf (n + 1)).2)
  refine ⟨dictGet dict (clampRandom (f (n + 1)) 0 ((dict.length : ℚ) - 1)),
          dictGet dict (clampRandom (f (n + 2)) 0 ((dict.length : ℚ) - 1)),
          dictGet dict (clampRandom (f (n + 3)) 0 ((dict.length : ℚ) - 1)),
          dictGet dict (clampRandom (f (n + 4)) 0 ((dict.length : ℚ) - 1)),
          dictGet dict (clampRandom (f (n + 5)) 0 ((dict.length : ℚ) - 1)),
          if clampRandom (f (n + 6)) 0 10 = 0 then [',', ' ', ' '] else [' '],
          dictGet_clampRandom_mem hdict (hf (n + 1)).1 (hf (n + 1)).2,
          dictGet_clampRandom_mem hdict (hf (n + 2)).1 (hf (n + 2)).2,
          dictGet_clampRandom_mem hdict (hf (n + 3)).1 (hf (n + 3)).2,
          dictGet_clampRandom_mem hdict (hf (n + 4)).1 (hf (n + 4)).2,
          dictGet_clampRandom_mem hdict (hf (n + 5)).1 (hf (n + 5)).2,
          ?_, ?_, ?_, ?_, ?_⟩
  · by_cases hcm : clampRandom (f (n + 6)) 0 10 = 0
    · exact Or.inl (if_pos hcm)
    · exact Or.inr (if_neg hcm)
  · have hbs := buildSentence_five f (n + 6)
      (dictGet dict (clampRandom (f (n + 1)) 0 ((dict.length : ℚ) - 1)))
      (dictGet dict (clampRandom (f (n + 2)) 0 ((dict.length : ℚ) - 1)))
      (dictGet dict (clampRandom (f (n + 3)) 0 ((dict.length : ℚ) - 1)))
      (dictGet dict (clampRandom (f (n + 4)) 0 ((dict.length : ℚ) - 1)))
      (dictGet dict (clampRandom (f (n + 5)) 0 ((dict.length : ℚ) - 1)))
    show (generateSentences _ dict f n).1 = _
    rw [generateSentences, hn1]
    simp only [hi1]
    rw [sentencesLoop, h55, hcr]
    simp only [hi5, hgw, List.length_cons, List.length_nil]
    rw [sentencesLoop]
    simp only [show (0 + 1 + 1 + 1 + 1 + 1 : ℕ) = 5 from rfl, hbs]
    rw [hw₁]
    simp only [capitalize, List.append_nil, List.cons_append, List.nil_append]
    rw [trimStr_sentence (not_whitespace_of_isUpper (isUpper_toUpper hlow₁))]
    by_cases hcm : clampRandom (f (n + 6)) 0 10 = 0 <;> simp [hcm, List.append_assoc]
  · rw [hw₁]
    simp [capitalize, isUpper_toUpper hlow₁]
  · rw [hw₁]
    simp [capitalize]
  · intro w hw
    simp only [List.mem_cons, List.not_mem_nil, or_false] at hw
    rcases hw with rfl | rfl | rfl | rfl <;>
      · obtain ⟨c, cs, hwe, hlow, hsp⟩ := hwords _ (dictGet_clampRandom_mem hdict (hf _).1 (hf _).2)
        exact ⟨by rw [hwe]; simp, hsp⟩

theorem sentence_five_words_witness :
    ∃ w₁ w₂ w₃ w₄ w₅ sep, w₁ ∈ ["aa".data] ∧ w₂ ∈ ["aa".data] ∧ w₃ ∈ ["aa".data] ∧
      w₄ ∈ ["aa".data] ∧ w₅ ∈ ["aa".data] ∧
      (sep = [',', ' ', ' '] ∨ sep = [' ']) ∧
      generateContent ⟨.sentence, .num 1, .str "5-5".data, .str "3-6".data⟩ ["aa".data]
          zeroDraws 0 =
        capitalize w₁ ++ sep ++ w₂ ++ ' ' :: w₃ ++ ' ' :: w₄ ++ ' ' :: w₅ ++ ['.'] ∧
      (capitalize w₁).headI.isUpper = true ∧ capitalize w₁ ≠ [] ∧
      ∀ w ∈ [w₂, w₃, w₄, w₅], w ≠ [] ∧ ' ' ∉ w :=
  sentence_five_words ⟨.sentence, .num 1, .str "5-5".data, .str "3-6".data⟩ ["aa".data]
    zeroDraws 0 rfl rfl rfl (by decide)
    (by
      intro w hw
      simp only [List.mem_singleton] at hw
      subst hw
      exact ⟨'a', "a".data, rfl, by decide, by decide⟩)
    (fun k => ⟨le_refl 0, by norm_num [zeroDraws]⟩)

/-- C8, counterexample to the claim as stated: with every other field at its
default the sentence count is resolved from `length = "3-5"`, so the all-zero
stream produces THREE sentences (three periods), not the single 5-word
sentence the claim describes. -/
theorem sentence_shape_multiple_sentences :
    generateContent ⟨.sentence, .str "3-5".data, .str "5-5".data, .str "3-6".data⟩
        ["aa".data] zeroDraws 0 =
      "Aa,  aa aa aa aa. Aa,  aa aa aa aa. Aa,  aa aa aa aa.".data ∧
    ¬ (List.count '.' (generateContent ⟨.sentence, .str "3-5".data, .str "5-5".data,
        .str "3-6".data⟩ ["aa".data] zeroDraws 0) = 1) := by
  constructor
  · with_unfolding_all decide
  · with_unfolding_all decide

/-- Helper: closed form of the definition-list item loop — `k` iterations
produce `k` term/description pairs, each term produced by `generateTitle`
(which resolves the OUTER `length` as the term's word count) and each
description a capitalized space-joined run of `wordsPerSentence` words. -/
theorem listLoop_dl (ln wps spp : SizeSpec) (dict : List Str) (f : Draws) :
    ∀ (k n : ℕ), ∃ (pairs : List (Str × Str)) (m : ℕ),
      listLoop ⟨.dl, ln, wps, spp⟩ dict f k n =
        ((pairs.map fun p =>
          "<dt>".data ++ p.1 ++ "</dt><dd>".data ++ p.2 ++ "</dd>".data).flatten, m) ∧
      pairs.length = k ∧
      ∀ p ∈ pairs,
        (∃ j, p.1 = (generateTitle ⟨.dl, ln, wps, spp⟩ dict f j).1) ∧
        (∃ j, p.2 = capitalize (List.intercalate [' ']
          (generateWords dict f
            (iterCount (getNumberWithinRange wps f j).1)
            (getNumberWithinRange wps f j).2).1)) := by
  intro k
  induction k with
  | zero =>
    intro n
    exact ⟨[], n, by simp [listLoop], rfl, by simp⟩
  | succ k ih =>
    intro n
    obtain ⟨pairs, m, hloop, hlen, hprop⟩ :=
      ih (generateTitle ⟨.dl, ln, wps, spp⟩ dict f
            (generateWords dict f
              (iterCount (getNumberWithinRange wps f n).1)
              (getNumberWithinRange wps f n).2).2).2
    have hstep : listLoop ⟨.dl, ln, wps, spp⟩ dict f (k + 1) n =
        ("<dt>".data ++
            (generateTitle ⟨.dl, ln, wps, spp⟩ dict f
              (generateWords dict f
                (iterCount (getNumberWithinRange wps f n).1)
                (getNumberWithinRange wps f n).2).2).1 ++
          "</dt><dd>".data ++
            capitalize (List.intercalate [' ']
              (generateWords dict f
                (iterCount (getNumberWithinRange wps f n).1)
                (getNumberWithinRange wps f n).2).1) ++
          "</dd>".data ++
          (listLoop ⟨.dl, ln, wps, spp⟩ dict f k
            (generateTitle ⟨.dl, ln, wps, spp⟩ dict f
              (generateWords dict f
                (iterCount (getNumberWithinRange wps f n).1)
                (getNumberWithinRange wps f n).2).2).2).1,
         (listLoop ⟨.dl, ln, wps, spp⟩ dict f k
            (generateTitle ⟨.dl, ln, wps, spp⟩ dict f
              (generateWords dict f
                (iterCount (getNumberWithinRange wps f n).1)
                (getNumberWithinRange wps f n).2).2).2).2) := rfl
    refine ⟨((generateTitle ⟨.dl, ln, wps, spp⟩ dict f
              (generateWords dict f
                (iterCount (getNumberWithinRange wps f n).1)
                (getNumberWithinRange wps f n).2).2).1,
             capitalize (List.intercalate [' ']
              (generateWords dict f
                (iterCount (getNumberWithinRange wps f n).1)
                (getNumberWithinRange wps f n).2).1)) :: pairs, m, ?_, by simp [hlen], ?_⟩
    · rw [hstep, hloop]
      simp [List.append_assoc]
    · intro p hp
      rcases List.mem_cons.mp hp with rfl | hmem
      · exact ⟨⟨_, rfl⟩, ⟨n, rfl⟩⟩
      · exact hprop p hmem
/-- C9: for shape = definition-list the output is the `<dl>` wrapper around
exactly `resolve(length)` term/description pairs; each term is built by the
title rule (`generateTitle`, which reuses the outer `length` spec as the
term's word count), and each description is a run of `wordsPerSentence`
dictionary words joined by single spaces with only its first letter
capitalized — no commas and no terminal period are ever appended to it. -/
theorem definition_list_structure (cfg : LoremConfig) (dict : List Str) (f : Draws) (n : ℕ)
    (htype : cfg.type = .dl) :
    ∃ (pairs : List (Str × Str)) (m : ℕ),
      generateContent cfg dict f n =
        "<dl>".data ++ (pairs.map fun p =>
          "<dt>".data ++ p.1 ++ "</dt><dd>".data ++ p.2 ++ "</dd>".data).flatten ++
          "</dl>".data ∧
      pairs.length = iterCount (getNumberWithinRange cfg.length f n).1 ∧
      ∀ p ∈ pairs,
        (∃ j, p.1 = (generateTitle cfg dict f j).1) ∧
        (∃ j, p.2 = capitalize (List.intercalate [' ']
          (generateWords dict f
            (iterCount (getNumberWithinRange cfg.wordsPerSentence f j).1)
            (getNumberWithinRange cfg.wordsPerSentence f j).2).1)) := by
  obtain ⟨ty, ln, wps, spp⟩ := cfg
  simp only at htype
  subst htype
  obtain ⟨pairs, m, hloop, hlen, hprop⟩ :=
    listLoop_dl ln wps spp dict f (iterCount (getNumberWithinRange ln f n).1)
      ((getNumberWithinRange ln f n).2)
  refine ⟨pairs, m, ?_, hlen, hprop⟩
  have hgl : generateContent ⟨.dl, ln, wps, spp⟩ dict f n =
      '<' :: typeTag .dl ++
        ('>' :: (listLoop ⟨.dl, ln, wps, spp⟩ dict f
          (iterCount (getNumberWithinRange ln f n).1)
          ((getNumberWithinRange ln f n).2)).1) ++
        ('<' :: '/' :: typeTag .dl) ++ ['>'] := rfl
  rw [hgl, hloop]
  simp [typeTag, List.append_assoc]

theorem definition_list_structure_witness :
    ∃ (pairs : List (Str × Str)) (m : ℕ),
      generateContent ⟨.dl, .str "2-2".data, .str "2-2".data, .str "3-6".data⟩ ["aa".data]
          zeroDraws 0 =
        "<dl>".data ++ (pairs.map fun p =>
          "<dt>".data ++ p.1 ++ "</dt><dd>".data ++ p.2 ++ "</dd>".data).flatten ++
          "</dl>".data ∧
      pairs.length = iterCount (getNumberWithinRange (SizeSpec.str "2-2".data) zeroDraws 0).1 ∧
      ∀ p ∈ pairs,
        (∃ j, p.1 = (generateTitle ⟨.dl, .str "2-2".data, .str "2-2".data, .str "3-6".data⟩
          ["aa".data] zeroDraws j).1) ∧
        (∃ j, p.2 = capitalize (List.intercalate [' ']
          (generateWords ["aa".data] zeroDraws
            (iterCount (getNumberWithinRange (SizeSpec.str "2-2".data) zeroDraws j).1)
            (getNumberWithinRange (SizeSpec.str "2-2".data) zeroDraws j).2).1)) :=
  definition_list_structure ⟨.dl, .str "2-2".data, .str "2-2".data, .str "3-6".data⟩
    ["aa".data] zeroDraws 0 rfl

end Tp
